import Mathlib

/-!
Shallow embedding of the Medplum bot-deployment orchestrator
(`packages/server/src/fhir/operations/deploy.ts`) and of the generic LRU
cache utility.  The AWS Lambda client is modelled as a record of response
functions; each embedded operation returns its result together with the
ordered trace of requests it issued to the client.  JavaScript `undefined`
is modelled by `Option`, a rejected `client.send` by `Except.error`, and a
JavaScript `TypeError` raised by optional-chaining misuse is modelled
explicitly.
-/

/-- Errors that the deployment code can raise: a rejected remote call
(`sendError`), a JavaScript TypeError from reading a property of
`undefined` (`typeError`), and a failure of archive serialization
(`zipError`). -/
inductive JsError where
  | sendError
  | typeError
  | zipError
  deriving DecidableEq

/-- The AWS `PackageType` enum. -/
inductive PackageTypeT where
  | Zip
  | Image
  deriving DecidableEq

/-- One attached layer as reported by `GetFunctionConfiguration`:
`Arn` may be absent. -/
structure Layer where
  Arn : Option String
  deriving DecidableEq

/-- The function-configuration shape used by `GetFunctionCommand` (under
`Configuration`) and by `GetFunctionConfigurationCommand`.  Every field may
be absent in the platform response. -/
structure FunctionConfiguration where
  FunctionName : Option String
  Runtime : Option String
  Handler : Option String
  Layers : Option (List Layer)
  deriving DecidableEq

/-- Response of `GetFunctionCommand`. -/
structure GetFunctionResponse where
  Configuration : Option FunctionConfiguration
  deriving DecidableEq

/-- One element of `ListLayerVersions`' result list. -/
structure LayerVersionsListItem where
  LayerVersionArn : Option String
  deriving DecidableEq

/-- Response of `ListLayerVersionsCommand`. -/
structure ListLayerVersionsResponse where
  LayerVersions : Option (List LayerVersionsListItem)
  deriving DecidableEq

/-- The in-memory archive is identified with its list of (file name,
file content) entries, in insertion order. -/
abbrev ZipFile := List (String × String)

/-- Parameters of `CreateFunctionCommand` as built by `createLambda`. -/
structure CreateFunctionParams where
  FunctionName : String
  Role : String
  Runtime : String
  Handler : String
  PackageType : PackageTypeT
  Layers : List (Option String)
  ZipFile : ZipFile
  Publish : Bool
  Timeout : Nat
  deriving DecidableEq

/-- Parameters of `UpdateFunctionConfigurationCommand` as built by
`updateLambda`. -/
structure UpdateFunctionConfigurationParams where
  FunctionName : String
  Role : String
  Runtime : String
  Handler : String
  Layers : List (Option String)
  Timeout : Nat
  deriving DecidableEq

/-- Parameters of `UpdateFunctionCodeCommand` as built by `updateLambda`. -/
structure UpdateFunctionCodeParams where
  FunctionName : String
  ZipFile : ZipFile
  Publish : Bool
  deriving DecidableEq

/-- A request issued to the Lambda client, with the parameters it carried. -/
inductive Command where
  | getFunction (functionName : String)
  | getFunctionConfiguration (functionName : String)
  | listLayerVersions (layerName : String) (maxItems : Nat)
  | createFunction (params : CreateFunctionParams)
  | updateFunctionConfiguration (params : UpdateFunctionConfigurationParams)
  | updateFunctionCode (params : UpdateFunctionCodeParams)
  deriving DecidableEq

/-- True exactly on `createFunction` requests. -/
def Command.isCreateFunction : Command → Bool
  | Command.createFunction _ => true
  | _ => false

/-- True exactly on `updateFunctionConfiguration` requests. -/
def Command.isUpdateConfig : Command → Bool
  | Command.updateFunctionConfiguration _ => true
  | _ => false

/-- True exactly on `updateFunctionCode` requests. -/
def Command.isUpdateCode : Command → Bool
  | Command.updateFunctionCode _ => true
  | _ => false

/-- True on the three state-changing requests (create function, update
configuration, update code). -/
def Command.isWrite (c : Command) : Bool :=
  c.isCreateFunction || c.isUpdateConfig || c.isUpdateCode

/-- True on requests that only the UPDATE path issues. -/
def Command.isUpdatePath (c : Command) : Bool :=
  (match c with
   | Command.getFunctionConfiguration _ => true
   | _ => false) || c.isUpdateConfig || c.isUpdateCode

/-- The static server configuration fields read through `getConfig()`. -/
structure ServerConfig where
  botLambdaRoleArn : String
  botLambdaLayerName : String

/-- The injected Lambda client: for each request shape, the platform's
response.  `Except.error ()` models a rejected `client.send` promise. -/
structure LambdaClient where
  getFunction : String → Except Unit GetFunctionResponse
  getFunctionConfiguration : String → Except Unit FunctionConfiguration
  listLayerVersions : String → Nat → Except Unit ListLayerVersionsResponse
  createFunction : CreateFunctionParams → Except Unit Unit
  updateFunctionConfiguration : UpdateFunctionConfigurationParams → Except Unit Unit
  updateFunctionCode : UpdateFunctionCodeParams → Except Unit Unit

/-- Fixed runtime identifier (`const LAMBDA_RUNTIME = 'nodejs16.x'`). -/
def LAMBDA_RUNTIME : String := "nodejs16.x"

/-- Fixed entry-point identifier (`const LAMBDA_HANDLER = 'index.handler'`). -/
def LAMBDA_HANDLER : String := "index.handler"

/-- Fixed wrapper asset (`const WRAPPER_CODE`), byte for byte: 25 lines
joined with newlines plus a trailing newline. -/
def WRAPPER_CODE : String :=
  String.intercalate "\n" [
    "const \x7b Hl7Message, MedplumClient \x7d = require(\"@medplum/core\");",
    "const fetch = require(\"node-fetch\");",
    "const userCode = require(\"./user.js\");",
    "",
    "exports.handler = async (event, context) => \x7b",
    "  const \x7b accessToken, input, contentType \x7d = event;",
    "  const medplum = new MedplumClient(\x7b fetch \x7d);",
    "  medplum.setAccessToken(accessToken);",
    "  try \x7b",
    "    return await userCode.handler(medplum, \x7b",
    "      input:",
    "        contentType === \"x-application/hl7-v2+er7\"",
    "          ? Hl7Message.parse(input)",
    "          : input,",
    "      contentType,",
    "    \x7d);",
    "  \x7d catch (err) \x7b",
    "    if (err instanceof Error) \x7b",
    "      console.log(\"Unhandled error: \" + err.message + \"\\n\" + err.stack);",
    "    \x7d else \x7b",
    "      console.log(\"Unhandled error: \" + err);",
    "    \x7d",
    "    throw err;",
    "  \x7d",
    "\x7d;"
  ] ++ "\n"

/-- JSZip's `zip.file(name, content)`: replace the entry with that name if
present, otherwise append it. -/
def JSZip.file (z : List (String × String)) (name content : String) :
    List (String × String) :=
  if z.any (fun e => e.1 == name) then
    z.map (fun e => if e.1 == name then (name, content) else e)
  else
    z ++ [(name, content)]

/-- The entry list built by `createZipFile`: `zip.file('user.js', code)`
then `zip.file('index.js', WRAPPER_CODE)` starting from an empty archive. -/
def zipEntries (code : String) : List (String × String) :=
  JSZip.file (JSZip.file [] "user.js" code) "index.js" WRAPPER_CODE

/-- `createZipFile(code)`: build the two-entry archive and serialize it
with JSZip's `generateAsync`, modelled by the injected `gen` (the real
serializer is `fun entries => Except.ok entries`; `gen` may reject). -/
def createZipFile (gen : List (String × String) → Except JsError ZipFile)
    (code : String) : Except JsError ZipFile :=
  gen (zipEntries code)

/-- Result of `lambdaExists(client, name)`: send `GetFunctionCommand` and
return `response.Configuration?.FunctionName === name`; any thrown error is
caught and yields `false`. -/
def lambdaExistsResult (client : LambdaClient) (name : String) : Bool :=
  match client.getFunction name with
  | Except.error _ => false
  | Except.ok response =>
    match response.Configuration with
    | none => false
    | some c => c.FunctionName == some name

/-- `lambdaExists(client, name)` together with the single request it
issues.  It never throws: its result type carries no error case. -/
def lambdaExists (client : LambdaClient) (name : String) : Bool × List Command :=
  (lambdaExistsResult client name, [Command.getFunction name])

/-- Result of `getLayerVersion(client)`:
`response.LayerVersions?.[0].LayerVersionArn as string`.  An absent list
short-circuits to `undefined` (`Except.ok none`); a present empty list
makes `[0]` evaluate to `undefined` whose `.LayerVersionArn` access throws
a TypeError; a rejected send propagates. -/
def getLayerVersionResult (client : LambdaClient) (cfg : ServerConfig) :
    Except JsError (Option String) :=
  match client.listLayerVersions cfg.botLambdaLayerName 1 with
  | Except.error _ => Except.error JsError.sendError
  | Except.ok response =>
    match response.LayerVersions with
    | none => Except.ok none
    | some [] => Except.error JsError.typeError
    | some (v :: _) => Except.ok v.LayerVersionArn

/-- `getLayerVersion(client)` together with the single request it issues
(`ListLayerVersionsCommand` with the configured layer name, `MaxItems` 1). -/
def getLayerVersion (client : LambdaClient) (cfg : ServerConfig) :
    Except JsError (Option String) × List Command :=
  (getLayerVersionResult client cfg,
   [Command.listLayerVersions cfg.botLambdaLayerName 1])

/-- The condition of `updateLambda`'s `if`, with JavaScript short-circuit
evaluation: `Runtime !== LAMBDA_RUNTIME || Handler !== LAMBDA_HANDLER ||
Layers?.[0].Arn !== layerVersion`.  The third disjunct throws a TypeError
when `Layers` is a present empty array (reached only when the first two
disjuncts are false). -/
def configUpdateNeeded (functionConfig : FunctionConfiguration)
    (layerVersion : Option String) : Except JsError Bool :=
  if functionConfig.Runtime ≠ some LAMBDA_RUNTIME then Except.ok true
  else if functionConfig.Handler ≠ some LAMBDA_HANDLER then Except.ok true
  else
    match functionConfig.Layers with
    | none => Except.ok (decide ((none : Option String) ≠ layerVersion))
    | some [] => Except.error JsError.typeError
    | some (l :: _) => Except.ok (decide (l.Arn ≠ layerVersion))

/-- The current first attached layer reference, read totally: the value
`Layers?.[0].Arn` denotes whenever it does not throw, and `none` when
there is no first layer. -/
def firstLayerArn (functionConfig : FunctionConfiguration) : Option String :=
  match functionConfig.Layers with
  | none => none
  | some [] => none
  | some (l :: _) => l.Arn

/-- Tail of `updateLambda`: send `UpdateFunctionCodeCommand` with the new
archive bytes and `Publish: true`.  The request is issued whatever the
platform answers; a rejection becomes the operation's error. -/
def updateCode (client : LambdaClient) (name : String) (zipFile : ZipFile)
    (t : List Command) : Except JsError Unit × List Command :=
  let params : UpdateFunctionCodeParams :=
    { FunctionName := name, ZipFile := zipFile, Publish := true }
  ((match client.updateFunctionCode params with
    | Except.error _ => Except.error JsError.sendError
    | Except.ok _ => Except.ok ()),
   t ++ [Command.updateFunctionCode params])

/-- The full desired configuration carried by
`UpdateFunctionConfigurationCommand`: role reference, fixed runtime, fixed
entry point, the resolved layer as sole layer, 10-second timeout. -/
def mkUpdateConfigurationParams (cfg : ServerConfig) (name : String)
    (layerVersion : Option String) : UpdateFunctionConfigurationParams :=
  { FunctionName := name, Role := cfg.botLambdaRoleArn,
    Runtime := LAMBDA_RUNTIME, Handler := LAMBDA_HANDLER,
    Layers := [layerVersion], Timeout := 10 }

/-- Body of `updateLambda` once the current configuration has been read:
reconcile configuration when the diff condition holds (stopping if that
update is rejected), then replace the code. -/
def updateLambdaCfg (client : LambdaClient) (cfg : ServerConfig)
    (name : String) (zipFile : ZipFile) (layerVersion : Option String)
    (functionConfig : FunctionConfiguration) (t1 : List Command) :
    Except JsError Unit × List Command :=
  match configUpdateNeeded functionConfig layerVersion with
  | Except.error e => (Except.error e, t1)
  | Except.ok true =>
    match client.updateFunctionConfiguration
        (mkUpdateConfigurationParams cfg name layerVersion) with
    | Except.error _ =>
      (Except.error JsError.sendError,
       t1 ++ [Command.updateFunctionConfiguration
                (mkUpdateConfigurationParams cfg name layerVersion)])
    | Except.ok _ =>
      updateCode client name zipFile
        (t1 ++ [Command.updateFunctionConfiguration
                  (mkUpdateConfigurationParams cfg name layerVersion)])
  | Except.ok false => updateCode client name zipFile t1

/-- Body of `updateLambda` after `getLayerVersion` has resolved: fetch the
current configuration, then reconcile and replace code. -/
def updateLambdaRest (client : LambdaClient) (cfg : ServerConfig)
    (name : String) (zipFile : ZipFile) (layerVersion : Option String)
    (t0 : List Command) : Except JsError Unit × List Command :=
  match client.getFunctionConfiguration name with
  | Except.error _ =>
    (Except.error JsError.sendError,
     t0 ++ [Command.getFunctionConfiguration name])
  | Except.ok functionConfig =>
    updateLambdaCfg client cfg name zipFile layerVersion functionConfig
      (t0 ++ [Command.getFunctionConfiguration name])

/-- `updateLambda(client, name, zipFile)`: resolve the layer version, then
reconcile configuration and replace code. -/
def updateLambda (client : LambdaClient) (cfg : ServerConfig) (name : String)
    (zipFile : ZipFile) : Except JsError Unit × List Command :=
  match getLayerVersion client cfg with
  | (Except.error e, t) => (Except.error e, t)
  | (Except.ok layerVersion, t) =>
    updateLambdaRest client cfg name zipFile layerVersion t

/-- The full desired state carried by `CreateFunctionCommand`: logical
name, role reference, fixed runtime, fixed entry point, zip package type,
the resolved layer as sole layer, the archive bytes, `Publish: true`,
10-second timeout. -/
def mkCreateFunctionParams (cfg : ServerConfig) (name : String)
    (layerVersion : Option String) (zipFile : ZipFile) : CreateFunctionParams :=
  { FunctionName := name, Role := cfg.botLambdaRoleArn,
    Runtime := LAMBDA_RUNTIME, Handler := LAMBDA_HANDLER,
    PackageType := PackageTypeT.Zip, Layers := [layerVersion],
    ZipFile := zipFile, Publish := true, Timeout := 10 }

/-- `createLambda(client, name, zipFile)`: resolve the layer version, then
send a single `CreateFunctionCommand` with the full desired state. -/
def createLambda (client : LambdaClient) (cfg : ServerConfig) (name : String)
    (zipFile : ZipFile) : Except JsError Unit × List Command :=
  match getLayerVersion client cfg with
  | (Except.error e, t) => (Except.error e, t)
  | (Except.ok layerVersion, t) =>
    ((match client.createFunction
          (mkCreateFunctionParams cfg name layerVersion zipFile) with
      | Except.error _ => Except.error JsError.sendError
      | Except.ok _ => Except.ok ()),
     t ++ [Command.createFunction (mkCreateFunctionParams cfg name layerVersion zipFile)])

/-- `deployLambda(client, name, code)`: build the archive, probe for
existence, then take exactly one of the CREATE or UPDATE paths. -/
def deployLambda (client : LambdaClient)
    (gen : List (String × String) → Except JsError ZipFile)
    (cfg : ServerConfig) (name : String) (code : String) :
    Except JsError Unit × List Command :=
  match createZipFile gen code with
  | Except.error e => (Except.error e, [])
  | Except.ok zipFile =>
    let probe := lambdaExists client name
    if !probe.1 then
      let r := createLambda client cfg name zipFile
      (r.1, probe.2 ++ r.2)
    else
      let r := updateLambda client cfg name zipFile
      (r.1, probe.2 ++ r.2)

/-!
Embedding of the generic LRU cache utility.  A JavaScript `Map` is
modelled as an insertion-ordered association list; `Map.get`, `Map.delete`
and `Map.set` are re-implemented with JavaScript's semantics (set updates
in place when the key exists, else appends; delete removes the first entry
with the key).  `LRUCache.get`'s `if (item)` guard tests JavaScript
truthiness of the stored value, supplied as a `truthy` predicate.
-/

/-- JavaScript `Map.prototype.get` over the ordered entry list. -/
def mapGet {T : Type} : List (String × T) → String → Option T
  | [], _ => none
  | e :: rest, k => if e.1 == k then some e.2 else mapGet rest k

/-- JavaScript `Map.prototype.delete` (removes the entry with the key
if present). -/
def mapDelete {T : Type} : List (String × T) → String → List (String × T)
  | [], _ => []
  | e :: rest, k => if e.1 == k then rest else e :: mapDelete rest k

/-- JavaScript `Map.prototype.set`: update in place when the key exists,
otherwise append at the most-recent end. -/
def mapSet {T : Type} : List (String × T) → String → T → List (String × T)
  | [], k, v => [(k, v)]
  | e :: rest, k, v => if e.1 == k then (k, v) :: rest else e :: mapSet rest k v

/-- JavaScript `this.cache.keys().next().value`: the first key in
insertion order, absent on an empty map. -/
def mapFirstKey {T : Type} (m : List (String × T)) : Option String :=
  m.head?.map (fun e => e.1)

/-- The LRU cache: capacity `max` (constructor default 10) and the
insertion-ordered backing map. -/
structure LRUCache (T : Type) where
  max : Nat
  cache : List (String × T)

/-- `LRUCache.get(key)`: look the key up; if the stored item is truthy,
delete and re-insert it to refresh its recency; return the item.  A falsy
stored value is returned without refreshing (JavaScript `if (item)`). -/
def LRUCache.get {T : Type} (truthy : T → Bool) (c : LRUCache T)
    (key : String) : Option T × LRUCache T :=
  match mapGet c.cache key with
  | none => (none, c)
  | some item =>
    if truthy item then
      (some item, ⟨c.max, mapSet (mapDelete c.cache key) key item⟩)
    else
      (some item, c)

/-- `LRUCache.set(key, val)`: delete the key if present; otherwise, when
the map is at or over capacity, delete the first (oldest-positioned) key;
then insert the new entry at the most-recent end. -/
def LRUCache.set {T : Type} (c : LRUCache T) (key : String) (val : T) :
    LRUCache T :=
  if (mapGet c.cache key).isSome then
    ⟨c.max, mapSet (mapDelete c.cache key) key val⟩
  else if c.cache.length ≥ c.max then
    let afterEvict :=
      match mapFirstKey c.cache with
      | some k => mapDelete c.cache k
      | none => c.cache
    ⟨c.max, mapSet afterEvict key val⟩
  else
    ⟨c.max, mapSet c.cache key val⟩

/-- One step of the cache's public interface. -/
inductive CacheOp (T : Type) where
  | get (k : String)
  | set (k : String) (v : T)

/-- Apply one operation to a cache (the value a `get` returns is
discarded; only the state evolution matters here). -/
def applyOp {T : Type} (truthy : T → Bool) (c : LRUCache T) :
    CacheOp T → LRUCache T
  | CacheOp.get k => (LRUCache.get truthy c k).2
  | CacheOp.set k v => LRUCache.set c k v

/-- Apply a sequence of operations in order. -/
def applyOps {T : Type} (truthy : T → Bool) (c : LRUCache T)
    (ops : List (CacheOp T)) : LRUCache T :=
  ops.foldl (applyOp truthy) c

/-- Whether an operation touches (uses) the key `k`. -/
def opTouches {T : Type} (k : String) : CacheOp T → Bool
  | CacheOp.get k2 => k2 == k
  | CacheOp.set k2 _ => k2 == k

/-- The index of the last operation in `ops` that uses key `k` (the
claim's notion of recency of use: a key is least recently used when its
last use is earliest). -/
def lastUse {T : Type} (ops : List (CacheOp T)) (k : String) : Option Nat :=
  ((ops.enum.filter (fun p => opTouches k p.2)).map (fun p => p.1)).getLast?

/-- JavaScript truthiness of a number restricted to naturals: 0 is falsy. -/
def jsTruthyNat (n : Nat) : Bool := n != 0

/-!
Concrete fixtures used by witnesses and counterexamples.
-/

/-- The identity archive serializer (JSZip's `generateAsync` succeeding). -/
def genId : List (String × String) → Except JsError ZipFile :=
  fun entries => Except.ok entries

/-- An archive serializer that rejects (JSZip's `generateAsync` failing). -/
def genFail : List (String × String) → Except JsError ZipFile :=
  fun _ => Except.error JsError.zipError

/-- A layer-version listing with one (most recent) version. -/
def okLayerResp : ListLayerVersionsResponse :=
  ⟨some [⟨some "layerArn1"⟩]⟩

/-- Static configuration used by the fixtures. -/
def cfgW : ServerConfig :=
  ⟨"roleArn1", "medplum-bot-layer"⟩

/-- A current configuration that fully matches the desired state. -/
def fcMatch : FunctionConfiguration :=
  ⟨some "fn", some LAMBDA_RUNTIME, some LAMBDA_HANDLER, some [⟨some "layerArn1"⟩]⟩

/-- A current configuration whose runtime differs from the desired one. -/
def fcDiff : FunctionConfiguration :=
  ⟨some "fn", some "nodejs14.x", some LAMBDA_HANDLER, some [⟨some "layerArn1"⟩]⟩

/-- A current configuration whose layer list is present but empty:
reading `Layers?.[0].Arn` on it throws a TypeError. -/
def fcEmptyLayers : FunctionConfiguration :=
  ⟨some "fn", some LAMBDA_RUNTIME, some LAMBDA_HANDLER, some []⟩

/-- A client for which the function `fn` exists with a fully matching
configuration and every write succeeds. -/
def clientU : LambdaClient where
  getFunction := fun _ => Except.ok ⟨some fcMatch⟩
  getFunctionConfiguration := fun _ => Except.ok fcMatch
  listLayerVersions := fun _ _ => Except.ok okLayerResp
  createFunction := fun _ => Except.ok ()
  updateFunctionConfiguration := fun _ => Except.ok ()
  updateFunctionCode := fun _ => Except.ok ()

/-- A client for which the function `fn` exists with a differing runtime
and every write succeeds. -/
def clientD : LambdaClient where
  getFunction := fun _ => Except.ok ⟨some fcDiff⟩
  getFunctionConfiguration := fun _ => Except.ok fcDiff
  listLayerVersions := fun _ _ => Except.ok okLayerResp
  createFunction := fun _ => Except.ok ()
  updateFunctionConfiguration := fun _ => Except.ok ()
  updateFunctionCode := fun _ => Except.ok ()

/-- A client for which the existence probe fails (function absent) and
every write succeeds. -/
def clientC : LambdaClient where
  getFunction := fun _ => Except.error ()
  getFunctionConfiguration := fun _ => Except.ok fcMatch
  listLayerVersions := fun _ _ => Except.ok okLayerResp
  createFunction := fun _ => Except.ok ()
  updateFunctionConfiguration := fun _ => Except.ok ()
  updateFunctionCode := fun _ => Except.ok ()

/-- A client whose layer-version listing returns an empty list and whose
existence probe fails. -/
def clientE : LambdaClient where
  getFunction := fun _ => Except.error ()
  getFunctionConfiguration := fun _ => Except.ok fcMatch
  listLayerVersions := fun _ _ => Except.ok ⟨some []⟩
  createFunction := fun _ => Except.ok ()
  updateFunctionConfiguration := fun _ => Except.ok ()
  updateFunctionCode := fun _ => Except.ok ()

/-- A client for which the function `fn` exists but its current
configuration carries a present-and-empty layer list. -/
def clientX : LambdaClient where
  getFunction := fun _ => Except.ok ⟨some fcEmptyLayers⟩
  getFunctionConfiguration := fun _ => Except.ok fcEmptyLayers
  listLayerVersions := fun _ _ => Except.ok okLayerResp
  createFunction := fun _ => Except.ok ()
  updateFunctionConfiguration := fun _ => Except.ok ()
  updateFunctionCode := fun _ => Except.ok ()

/-- The operation sequence of the LRU counterexample: `a` is stored with
the falsy value 0, so the later `get "a"` does not refresh its recency. -/
def cexOps : List (CacheOp Nat) :=
  [CacheOp.set "a" 0, CacheOp.set "b" 1, CacheOp.get "a"]

/-!
Helper lemmas.
-/

/-- The archive entry list evaluates to exactly the two mandated entries. -/
theorem zipEntries_eq (code : String) :
    zipEntries code = [("user.js", code), ("index.js", WRAPPER_CODE)] := rfl

/-- When layer resolution succeeds, `updateLambda` is its remainder run
after the single listing request. -/
theorem updateLambda_eq_rest (client : LambdaClient) (cfg : ServerConfig)
    (name : String) (zip : ZipFile) (lv : Option String)
    (h1 : getLayerVersionResult client cfg = Except.ok lv) :
    updateLambda client cfg name zip =
      updateLambdaRest client cfg name zip lv
        [Command.listLayerVersions cfg.botLambdaLayerName 1] := by
  unfold updateLambda getLayerVersion
  rw [h1]

/-- When layer resolution fails, `updateLambda` stops with that error
after the single listing request. -/
theorem updateLambda_eq_err (client : LambdaClient) (cfg : ServerConfig)
    (name : String) (zip : ZipFile) (e : JsError)
    (h1 : getLayerVersionResult client cfg = Except.error e) :
    updateLambda client cfg name zip =
      (Except.error e, [Command.listLayerVersions cfg.botLambdaLayerName 1]) := by
  unfold updateLambda getLayerVersion
  rw [h1]

/-- Away from the present-and-empty layer list, the update condition is
the decidable three-way disjunction of the claim. -/
theorem configUpdateNeeded_eq (fc : FunctionConfiguration) (lv : Option String)
    (h3 : fc.Layers ≠ some []) :
    configUpdateNeeded fc lv =
      Except.ok (decide (fc.Runtime ≠ some LAMBDA_RUNTIME ∨
        fc.Handler ≠ some LAMBDA_HANDLER ∨ firstLayerArn fc ≠ lv)) := by
  unfold configUpdateNeeded firstLayerArn
  by_cases hr : fc.Runtime = some LAMBDA_RUNTIME
  · by_cases hh : fc.Handler = some LAMBDA_HANDLER
    · rcases hl : fc.Layers with _ | ls
      · simp [hr, hh, hl]
      · rcases ls with _ | ⟨l, rest⟩
        · exact absurd hl h3
        · simp [hr, hh, hl]
    · simp [hr, hh]
  · simp [hr]

/-- Every possible request trace of `updateLambda`, by case analysis on
the platform's responses: stop after listing; stop after the
configuration read; configuration update issued and rejected;
configuration update issued, acknowledged, then the code update; or the
code update alone. -/
theorem updateLambda_trace_shape (client : LambdaClient) (cfg : ServerConfig)
    (name : String) (zip : ZipFile) :
    (updateLambda client cfg name zip).2 =
        [Command.listLayerVersions cfg.botLambdaLayerName 1] ∨
    (updateLambda client cfg name zip).2 =
        [Command.listLayerVersions cfg.botLambdaLayerName 1,
         Command.getFunctionConfiguration name] ∨
    (∃ p, (updateLambda client cfg name zip).2 =
        [Command.listLayerVersions cfg.botLambdaLayerName 1,
         Command.getFunctionConfiguration name,
         Command.updateFunctionConfiguration p] ∧
        client.updateFunctionConfiguration p = Except.error ()) ∨
    (∃ p, (updateLambda client cfg name zip).2 =
        [Command.listLayerVersions cfg.botLambdaLayerName 1,
         Command.getFunctionConfiguration name,
         Command.updateFunctionConfiguration p,
         Command.updateFunctionCode
           { FunctionName := name, ZipFile := zip, Publish := true }] ∧
        client.updateFunctionConfiguration p = Except.ok ()) ∨
    (updateLambda client cfg name zip).2 =
        [Command.listLayerVersions cfg.botLambdaLayerName 1,
         Command.getFunctionConfiguration name,
         Command.updateFunctionCode
           { FunctionName := name, ZipFile := zip, Publish := true }] := by
  rcases hg : getLayerVersionResult client cfg with e | lv
  · exact Or.inl (by rw [updateLambda_eq_err client cfg name zip e hg])
  · rw [updateLambda_eq_rest client cfg name zip lv hg]
    unfold updateLambdaRest
    split
    · exact Or.inr (Or.inl rfl)
    · unfold updateLambdaCfg
      split
      · exact Or.inr (Or.inl rfl)
      · split
        · next u hu =>
            exact Or.inr (Or.inr (Or.inl ⟨_, rfl, hu⟩))
        · next u hu =>
            refine Or.inr (Or.inr (Or.inr (Or.inl ⟨_, ?_, hu⟩)))
            simp [updateCode]
      · refine Or.inr (Or.inr (Or.inr (Or.inr ?_)))
        simp [updateCode]

/-- When layer resolution fails, `createLambda` stops with that error
after the single listing request. -/
theorem createLambda_eq_err (client : LambdaClient) (cfg : ServerConfig)
    (name : String) (zip : ZipFile) (e : JsError)
    (h : getLayerVersionResult client cfg = Except.error e) :
    createLambda client cfg name zip =
      (Except.error e, [Command.listLayerVersions cfg.botLambdaLayerName 1]) := by
  unfold createLambda getLayerVersion
  rw [h]

/-- When layer resolution succeeds, `createLambda` issues exactly the one
creation request with the full desired state. -/
theorem createLambda_eq_ok (client : LambdaClient) (cfg : ServerConfig)
    (name : String) (zip : ZipFile) (lv : Option String)
    (h : getLayerVersionResult client cfg = Except.ok lv) :
    createLambda client cfg name zip =
      ((match client.createFunction (mkCreateFunctionParams cfg name lv zip) with
        | Except.error _ => Except.error JsError.sendError
        | Except.ok _ => Except.ok ()),
       [Command.listLayerVersions cfg.botLambdaLayerName 1,
        Command.createFunction (mkCreateFunctionParams cfg name lv zip)]) := by
  unfold createLambda getLayerVersion
  rw [h]
  rfl

/-- The UPDATE path never issues a creation request. -/
theorem updateLambda_count_create (client : LambdaClient) (cfg : ServerConfig)
    (name : String) (zip : ZipFile) :
    List.countP Command.isCreateFunction (updateLambda client cfg name zip).2 = 0 := by
  rcases updateLambda_trace_shape client cfg name zip with
    h | h | ⟨p, h, _⟩ | ⟨p, h, _⟩ | h <;>
    simp [h, Command.isCreateFunction]

/-- The CREATE path never issues an update-path request. -/
theorem createLambda_count_updatePath (client : LambdaClient)
    (cfg : ServerConfig) (name : String) (zip : ZipFile) :
    List.countP Command.isUpdatePath (createLambda client cfg name zip).2 = 0 := by
  rcases hg : getLayerVersionResult client cfg with e | lv
  · rw [createLambda_eq_err client cfg name zip e hg]
    simp [Command.isUpdatePath, Command.isUpdateConfig, Command.isUpdateCode]
  · rw [createLambda_eq_ok client cfg name zip lv hg]
    simp [Command.isUpdatePath, Command.isUpdateConfig, Command.isUpdateCode]

/-- C7: for every code text, the produced archive contains exactly two
entries — the user code unchanged under `user.js` and the fixed wrapper
asset byte-for-byte under `index.js` — and no other entries. -/
theorem packager_two_entries (code : String) :
    (zipEntries code).length = 2 ∧
    mapGet (zipEntries code) "user.js" = some code ∧
    mapGet (zipEntries code) "index.js" = some WRAPPER_CODE ∧
    ∀ e ∈ zipEntries code, e.1 = "user.js" ∨ e.1 = "index.js" := by
  refine ⟨rfl, rfl, rfl, ?_⟩
  intro e he
  rw [zipEntries_eq] at he
  rcases List.mem_cons.mp he with h | h2
  · exact Or.inl (by rw [h])
  · rcases List.mem_cons.mp h2 with h | h3
    · exact Or.inr (by rw [h])
    · exact absurd h3 (List.not_mem_nil e)

/-- C9: archive construction comes first; if packaging fails, the
deployment aborts with that error and an empty request trace, so no
remote request was issued and remote state is unchanged. -/
theorem deploy_packaging_failure_no_calls (client : LambdaClient)
    (gen : List (String × String) → Except JsError ZipFile)
    (cfg : ServerConfig) (name code : String) (e : JsError)
    (h : createZipFile gen code = Except.error e) :
    deployLambda client gen cfg name code = (Except.error e, []) := by
  unfold deployLambda
  rw [h]

/-- Witness: with a rejecting serializer, deployment aborts with the zip
error and an empty request trace. -/
theorem deploy_packaging_failure_no_calls_witness :
    deployLambda clientU genFail cfgW "fn" "x" =
      (Except.error JsError.zipError, []) :=
  deploy_packaging_failure_no_calls clientU genFail cfgW "fn" "x"
    JsError.zipError rfl

/-- C6: the existence prober returns true exactly when the remote query
succeeds and the reported function name equals the queried name; every
query failure yields false.  No exception propagates: the prober's result
type is a plain boolean. -/
theorem lambda_exists_spec (client : LambdaClient) (name : String) :
    (lambdaExistsResult client name = true ↔
      ∃ resp c, client.getFunction name = Except.ok resp ∧
        resp.Configuration = some c ∧ c.FunctionName = some name)
    ∧ (∀ e, client.getFunction name = Except.error e →
        lambdaExistsResult client name = false) := by
  constructor
  · constructor
    · intro h
      unfold lambdaExistsResult at h
      split at h
      · cases h
      · next resp hg =>
          split at h
          · cases h
          · next c hc =>
              exact ⟨resp, c, hg, hc, by simpa using h⟩
    · rintro ⟨resp, c, hg2, hc, hn2⟩
      simp [lambdaExistsResult, hg2, hc, hn2]
  · intro e he
    simp [lambdaExistsResult, he]

/-- Witness: the prober answers true for a client reporting a matching
name and false for a client whose query is rejected. -/
theorem lambda_exists_spec_witness :
    lambdaExistsResult clientU "fn" = true ∧
    lambdaExistsResult clientC "fn" = false :=
  ⟨(lambda_exists_spec clientU "fn").1.mpr ⟨⟨some fcMatch⟩, fcMatch, rfl, rfl, rfl⟩,
   (lambda_exists_spec clientC "fn").2 () rfl⟩

/-- C3: the Layer Resolver returns the identifier of the first element of
the returned version list; on an empty list it fails with the TypeError
and on a failed query with the send error; and when layer resolution
fails, the deployment fails with that error having issued no
create-function or update-function request. -/
theorem layer_resolver_spec :
    (∀ (client : LambdaClient) (cfg : ServerConfig) resp v rest,
      client.listLayerVersions cfg.botLambdaLayerName 1 = Except.ok resp →
      resp.LayerVersions = some (v :: rest) →
      getLayerVersionResult client cfg = Except.ok v.LayerVersionArn)
    ∧ (∀ (client : LambdaClient) (cfg : ServerConfig) resp,
      client.listLayerVersions cfg.botLambdaLayerName 1 = Except.ok resp →
      resp.LayerVersions = some [] →
      getLayerVersionResult client cfg = Except.error JsError.typeError)
    ∧ (∀ (client : LambdaClient) (cfg : ServerConfig) (e : Unit),
      client.listLayerVersions cfg.botLambdaLayerName 1 = Except.error e →
      getLayerVersionResult client cfg = Except.error JsError.sendError)
    ∧ (∀ (client : LambdaClient) gen (cfg : ServerConfig) (name code : String)
        (z : ZipFile) (e : JsError),
      createZipFile gen code = Except.ok z →
      getLayerVersionResult client cfg = Except.error e →
      (deployLambda client gen cfg name code).1 = Except.error e ∧
      List.countP Command.isWrite (deployLambda client gen cfg name code).2 = 0) := by
  refine ⟨?_, ?_, ?_, ?_⟩
  · intro client cfg resp v rest h1 h2
    simp [getLayerVersionResult, h1, h2]
  · intro client cfg resp h1 h2
    simp [getLayerVersionResult, h1, h2]
  · intro client cfg e h1
    simp [getLayerVersionResult, h1]
  · intro client gen cfg name code z e hz hg
    have hD : deployLambda client gen cfg name code =
        (Except.error e,
         [Command.getFunction name,
          Command.listLayerVersions cfg.botLambdaLayerName 1]) := by
      unfold deployLambda
      rw [hz]
      rcases hb : lambdaExistsResult client name
      · simp [lambdaExists, hb, createLambda_eq_err client cfg name z e hg]
      · simp [lambdaExists, hb, updateLambda_eq_err client cfg name z e hg]
    rw [hD]
    refine ⟨rfl, ?_⟩
    simp [Command.isWrite, Command.isCreateFunction, Command.isUpdateConfig,
      Command.isUpdateCode]

/-- Witness: a one-element listing resolves to its first identifier; an
empty listing makes the deployment fail before any write request. -/
theorem layer_resolver_spec_witness :
    getLayerVersionResult clientU cfgW = Except.ok (some "layerArn1") ∧
    getLayerVersionResult clientE cfgW = Except.error JsError.typeError ∧
    (deployLambda clientE genId cfgW "fn" "x").1 = Except.error JsError.typeError ∧
    List.countP Command.isWrite (deployLambda clientE genId cfgW "fn" "x").2 = 0 := by
  have h1 := layer_resolver_spec.1 clientU cfgW okLayerResp ⟨some "layerArn1"⟩ [] rfl rfl
  have h2 := layer_resolver_spec.2.1 clientE cfgW ⟨some []⟩ rfl rfl
  have h4 := layer_resolver_spec.2.2.2 clientE genId cfgW "fn" "x"
    (zipEntries "x") JsError.typeError rfl h2
  exact ⟨h1, h2, h4.1, h4.2⟩

/-- C2: path selection is made once per deployment, solely by the
prober's boolean — UPDATE routine iff it is true, CREATE routine iff it
is false — and the chosen path issues none of the other path's requests. -/
theorem deploy_path_selection (client : LambdaClient)
    (gen : List (String × String) → Except JsError ZipFile)
    (cfg : ServerConfig) (name code : String) (z : ZipFile)
    (hz : createZipFile gen code = Except.ok z) :
    (deployLambda client gen cfg name code =
      (if lambdaExistsResult client name then
        ((updateLambda client cfg name z).1,
         Command.getFunction name :: (updateLambda client cfg name z).2)
      else
        ((createLambda client cfg name z).1,
         Command.getFunction name :: (createLambda client cfg name z).2)))
    ∧ (lambdaExistsResult client name = true →
        List.countP Command.isCreateFunction
          (deployLambda client gen cfg name code).2 = 0)
    ∧ (lambdaExistsResult client name = false →
        List.countP Command.isUpdatePath
          (deployLambda client gen cfg name code).2 = 0) := by
  have hmain : deployLambda client gen cfg name code =
      (if lambdaExistsResult client name then
        ((updateLambda client cfg name z).1,
         Command.getFunction name :: (updateLambda client cfg name z).2)
      else
        ((createLambda client cfg name z).1,
         Command.getFunction name :: (createLambda client cfg name z).2)) := by
    unfold deployLambda
    rw [hz]
    rcases hb : lambdaExistsResult client name
    · simp [lambdaExists, hb]
    · simp [lambdaExists, hb]
  refine ⟨hmain, ?_, ?_⟩
  · intro hb
    rw [hmain]
    simp [hb, Command.isCreateFunction, updateLambda_count_create client cfg name z]
  · intro hb
    rw [hmain]
    simp [hb, Command.isUpdatePath, Command.isUpdateConfig, Command.isUpdateCode,
      createLambda_count_updatePath client cfg name z]

/-- Witness: with an existing function the deployment is the probe
followed by the UPDATE routine; with an absent one it issues no
update-path request. -/
theorem deploy_path_selection_witness :
    deployLambda clientU genId cfgW "fn" "x" =
      ((updateLambda clientU cfgW "fn" (zipEntries "x")).1,
       Command.getFunction "fn" ::
         (updateLambda clientU cfgW "fn" (zipEntries "x")).2) ∧
    List.countP Command.isUpdatePath
      (deployLambda clientC genId cfgW "fn" "x").2 = 0 := by
  have h1 := deploy_path_selection clientU genId cfgW "fn" "x" (zipEntries "x") rfl
  have h2 := deploy_path_selection clientC genId cfgW "fn" "x" (zipEntries "x") rfl
  have hb1 : lambdaExistsResult clientU "fn" = true := rfl
  constructor
  · have := h1.1
    rwa [hb1, if_pos rfl] at this
  · exact h2.2.2 rfl

/-- C1 (amended): provided the current configuration's layer list is not
present-and-empty, the configuration-update request is issued exactly once
iff at least one of the runtime identifier, the entry-point identifier, or
the first attached layer reference differs from the desired values, and
not at all when all three match.  (When the layer list is present and
empty while runtime and entry point match, the comparison itself throws a
TypeError and no configuration-update request is sent: see the
counterexample.) -/
theorem update_config_diff (client : LambdaClient) (cfg : ServerConfig)
    (name : String) (zip : ZipFile) (lv : Option String)
    (fc : FunctionConfiguration)
    (h1 : getLayerVersionResult client cfg = Except.ok lv)
    (h2 : client.getFunctionConfiguration name = Except.ok fc)
    (h3 : fc.Layers ≠ some []) :
    List.countP Command.isUpdateConfig (updateLambda client cfg name zip).2 =
      if fc.Runtime ≠ some LAMBDA_RUNTIME ∨ fc.Handler ≠ some LAMBDA_HANDLER ∨
         firstLayerArn fc ≠ lv then 1 else 0 := by
  rw [updateLambda_eq_rest client cfg name zip lv h1]
  unfold updateLambdaRest
  simp only [h2]
  unfold updateLambdaCfg
  rw [configUpdateNeeded_eq fc lv h3]
  by_cases hD : (fc.Runtime ≠ some LAMBDA_RUNTIME ∨
      fc.Handler ≠ some LAMBDA_HANDLER ∨ firstLayerArn fc ≠ lv)
  · rw [if_pos hD]
    have hd := decide_eq_true hD
    simp only [hd]
    rcases hu : client.updateFunctionConfiguration
        (mkUpdateConfigurationParams cfg name lv) with u | u <;>
      simp [hu, updateCode, Command.isUpdateConfig]
  · rw [if_neg hD]
    have hd := decide_eq_false hD
    simp only [hd]
    simp [updateCode, Command.isUpdateConfig]

/-- Counterexample to C1 as stated: the current configuration has a
present-and-empty layer list, so there is no first attached layer
reference and it differs from the resolved desired layer, while runtime
and entry point match; yet the UPDATE path issues no configuration-update
request — it throws a TypeError during the comparison instead. -/
theorem update_config_diff_counterexample :
    getLayerVersionResult clientX cfgW = Except.ok (some "layerArn1") ∧
    clientX.getFunctionConfiguration "fn" = Except.ok fcEmptyLayers ∧
    fcEmptyLayers.Runtime = some LAMBDA_RUNTIME ∧
    fcEmptyLayers.Handler = some LAMBDA_HANDLER ∧
    firstLayerArn fcEmptyLayers ≠ some "layerArn1" ∧
    List.countP Command.isUpdateConfig (updateLambda clientX cfgW "fn" []).2 = 0 ∧
    (updateLambda clientX cfgW "fn" []).1 = Except.error JsError.typeError := by
  refine ⟨rfl, rfl, rfl, rfl, by decide, rfl, rfl⟩

/-- Witness: a differing runtime yields exactly one configuration-update
request, a fully matching configuration yields none. -/
theorem update_config_diff_witness :
    List.countP Command.isUpdateConfig (updateLambda clientD cfgW "fn" []).2 = 1 ∧
    List.countP Command.isUpdateConfig (updateLambda clientU cfgW "fn" []).2 = 0 := by
  constructor
  · have h := update_config_diff clientD cfgW "fn" [] (some "layerArn1") fcDiff
      rfl rfl (by decide)
    rw [h]
    decide
  · have h := update_config_diff clientU cfgW "fn" [] (some "layerArn1") fcMatch
      rfl rfl (by decide)
    rw [h]
    decide

/-- C4: on the UPDATE path, every configuration-update request strictly
precedes every code-update request in the issued order, and whenever both
a configuration-update and a code-update request occur in the trace, the
configuration update was acknowledged by the platform (so the code update
is never sent past a failed configuration update). -/
theorem update_config_before_code (client : LambdaClient) (cfg : ServerConfig)
    (name : String) (zip : ZipFile) :
    (∀ i j : Fin (updateLambda client cfg name zip).2.length,
      ((updateLambda client cfg name zip).2.get i).isUpdateConfig = true →
      ((updateLambda client cfg name zip).2.get j).isUpdateCode = true →
      (i : Nat) < (j : Nat))
    ∧ (∀ p q,
        Command.updateFunctionConfiguration p ∈ (updateLambda client cfg name zip).2 →
        Command.updateFunctionCode q ∈ (updateLambda client cfg name zip).2 →
        client.updateFunctionConfiguration p = Except.ok ()) := by
  rcases updateLambda_trace_shape client cfg name zip with
    h | h | ⟨p0, h, hu⟩ | ⟨p0, h, hu⟩ | h <;> rw [h]
  · constructor
    · intro i j hi hj
      fin_cases i <;> fin_cases j <;>
        first
          | exact Bool.noConfusion hi
          | exact Bool.noConfusion hj
          | exact (by decide : (2 : Nat) < 3)
    · intro p q hp hq
      simp_all
  · constructor
    · intro i j hi hj
      fin_cases i <;> fin_cases j <;>
        first
          | exact Bool.noConfusion hi
          | exact Bool.noConfusion hj
          | exact (by decide : (2 : Nat) < 3)
    · intro p q hp hq
      simp_all
  · constructor
    · intro i j hi hj
      fin_cases i <;> fin_cases j <;>
        first
          | exact Bool.noConfusion hi
          | exact Bool.noConfusion hj
          | exact (by decide : (2 : Nat) < 3)
    · intro p q hp hq
      simp_all
  · constructor
    · intro i j hi hj
      fin_cases i <;> fin_cases j <;>
        first
          | exact Bool.noConfusion hi
          | exact Bool.noConfusion hj
          | exact (by decide : (2 : Nat) < 3)
    · intro p q hp hq
      simp_all
  · constructor
    · intro i j hi hj
      fin_cases i <;> fin_cases j <;>
        first
          | exact Bool.noConfusion hi
          | exact Bool.noConfusion hj
          | exact (by decide : (2 : Nat) < 3)
    · intro p q hp hq
      simp_all

/-- Witness: on a client needing a configuration update followed by a
code update, the configuration request (index 2) precedes the code
request (index 3), and its acknowledgement is recorded. -/
theorem update_config_before_code_witness :
    (2 : Nat) < 3 ∧
    clientD.updateFunctionConfiguration
      (mkUpdateConfigurationParams cfgW "fn" (some "layerArn1")) = Except.ok () :=
  ⟨(update_config_before_code clientD cfgW "fn" []).1
      ⟨2, by decide⟩ ⟨3, by decide⟩ (by decide) (by decide),
   (update_config_before_code clientD cfgW "fn" []).2
      (mkUpdateConfigurationParams cfgW "fn" (some "layerArn1"))
      { FunctionName := "fn", ZipFile := [], Publish := true }
      (by decide) (by decide)⟩

/-- C5: on every UPDATE path invocation whose reads succeed (and whose
configuration update, when one is needed, is acknowledged), exactly one
code-update request is issued, carrying the new archive bytes with
`Publish: true` — whether the configuration update was issued or
skipped. -/
theorem update_code_always (client : LambdaClient) (cfg : ServerConfig)
    (name : String) (zip : ZipFile) (lv : Option String)
    (fc : FunctionConfiguration)
    (h1 : getLayerVersionResult client cfg = Except.ok lv)
    (h2 : client.getFunctionConfiguration name = Except.ok fc)
    (h3 : fc.Layers ≠ some [])
    (h4 : ∀ p, client.updateFunctionConfiguration p = Except.ok ()) :
    List.countP Command.isUpdateCode (updateLambda client cfg name zip).2 = 1 ∧
    Command.updateFunctionCode
        { FunctionName := name, ZipFile := zip, Publish := true }
      ∈ (updateLambda client cfg name zip).2 := by
  rw [updateLambda_eq_rest client cfg name zip lv h1]
  unfold updateLambdaRest
  simp only [h2]
  unfold updateLambdaCfg
  rw [configUpdateNeeded_eq fc lv h3]
  by_cases hD : (fc.Runtime ≠ some LAMBDA_RUNTIME ∨
      fc.Handler ≠ some LAMBDA_HANDLER ∨ firstLayerArn fc ≠ lv)
  · have hd := decide_eq_true hD
    simp only [hd, h4]
    simp [updateCode, Command.isUpdateCode]
  · have hd := decide_eq_false hD
    simp only [hd]
    simp [updateCode, Command.isUpdateCode]

/-- Witness: a fully matching configuration (update skipped) still gets
exactly one code-update request with the archive and the publish flag. -/
theorem update_code_always_witness :
    List.countP Command.isUpdateCode (updateLambda clientU cfgW "fn" []).2 = 1 ∧
    Command.updateFunctionCode
        { FunctionName := "fn", ZipFile := [], Publish := true }
      ∈ (updateLambda clientU cfgW "fn" []).2 :=
  update_code_always clientU cfgW "fn" [] (some "layerArn1") fcMatch rfl rfl
    (by decide) (fun _ => rfl)

/-- C8: on the CREATE path, exactly one creation request is issued,
carrying the logical name, the configured role reference, the fixed
runtime and entry-point identifiers, the zip package-type marker, the
resolved most-recent layer reference as sole layer, the archive bytes,
`Publish: true` and a 10-second timeout. -/
theorem create_call_fields (client : LambdaClient)
    (gen : List (String × String) → Except JsError ZipFile)
    (cfg : ServerConfig) (name code : String) (z : ZipFile) (lv : Option String)
    (hz : createZipFile gen code = Except.ok z)
    (hex : lambdaExistsResult client name = false)
    (h1 : getLayerVersionResult client cfg = Except.ok lv) :
    List.countP Command.isCreateFunction
      (deployLambda client gen cfg name code).2 = 1 ∧
    Command.createFunction
        { FunctionName := name, Role := cfg.botLambdaRoleArn,
          Runtime := LAMBDA_RUNTIME, Handler := LAMBDA_HANDLER,
          PackageType := PackageTypeT.Zip, Layers := [lv],
          ZipFile := z, Publish := true, Timeout := 10 }
      ∈ (deployLambda client gen cfg name code).2 := by
  have hD : deployLambda client gen cfg name code =
      ((createLambda client cfg name z).1,
       Command.getFunction name :: (createLambda client cfg name z).2) := by
    unfold deployLambda
    rw [hz]
    simp [lambdaExists, hex]
  rw [hD, createLambda_eq_ok client cfg name z lv h1]
  constructor
  · simp [Command.isCreateFunction]
  · simp [mkCreateFunctionParams]

/-- Witness: an absent function gets exactly one creation request with
the resolved layer, the archive, publish flag and 10-second timeout. -/
theorem create_call_fields_witness :
    List.countP Command.isCreateFunction
      (deployLambda clientC genId cfgW "fn" "x").2 = 1 ∧
    Command.createFunction
        { FunctionName := "fn", Role := cfgW.botLambdaRoleArn,
          Runtime := LAMBDA_RUNTIME, Handler := LAMBDA_HANDLER,
          PackageType := PackageTypeT.Zip, Layers := [some "layerArn1"],
          ZipFile := zipEntries "x", Publish := true, Timeout := 10 }
      ∈ (deployLambda clientC genId cfgW "fn" "x").2 :=
  create_call_fields clientC genId cfgW "fn" "x" (zipEntries "x")
    (some "layerArn1") rfl rfl rfl

/-- Setting a key grows the map by at most one entry. -/
theorem mapSet_length_le {T : Type} (m : List (String × T)) (k : String)
    (v : T) : (mapSet m k v).length ≤ m.length + 1 := by
  induction m with
  | nil => simp [mapSet]
  | cons e rest ih =>
    simp only [mapSet]
    split
    · simp
    · simp only [List.length_cons]
      omega

/-- Deleting a key present in the map shrinks it by exactly one entry. -/
theorem mapDelete_length_of_get {T : Type} (m : List (String × T))
    (k : String) (v : T) (h : mapGet m k = some v) :
    (mapDelete m k).length + 1 = m.length := by
  induction m with
  | nil => simp [mapGet] at h
  | cons e rest ih =>
    simp only [mapGet] at h
    simp only [mapDelete]
    by_cases hk : (e.1 == k) = true
    · rw [if_pos hk]
      simp
    · rw [if_neg hk] at h
      rw [if_neg hk]
      simp only [List.length_cons]
      have := ih h
      omega

/-- Setting an absent key appends it at the most-recent end. -/
theorem mapSet_of_absent {T : Type} (m : List (String × T)) (k : String)
    (v : T) (h : mapGet m k = none) : mapSet m k v = m ++ [(k, v)] := by
  induction m with
  | nil => rfl
  | cons e rest ih =>
    simp only [mapGet] at h
    simp only [mapSet]
    by_cases hk : (e.1 == k) = true
    · rw [if_pos hk] at h
      exact Option.noConfusion h
    · rw [if_neg hk] at h
      rw [if_neg hk, ih h]
      simp

/-- One cache operation never changes the capacity field. -/
theorem applyOp_max {T : Type} (truthy : T → Bool) (c : LRUCache T)
    (op : CacheOp T) : (applyOp truthy c op).max = c.max := by
  cases op with
  | get k =>
    show (LRUCache.get truthy c k).2.max = c.max
    unfold LRUCache.get
    split
    · rfl
    · split <;> rfl
  | set k v =>
    show (LRUCache.set c k v).max = c.max
    unfold LRUCache.set
    split
    · rfl
    · split <;> rfl

/-- One cache operation preserves the capacity bound on the entry count. -/
theorem applyOp_length {T : Type} (truthy : T → Bool) (c : LRUCache T)
    (op : CacheOp T) (hm : 1 ≤ c.max) (h : c.cache.length ≤ c.max) :
    (applyOp truthy c op).cache.length ≤ c.max := by
  cases op with
  | get k =>
    show (LRUCache.get truthy c k).2.cache.length ≤ c.max
    unfold LRUCache.get
    split
    · exact h
    · next item hg =>
        split
        · calc (mapSet (mapDelete c.cache k) k item).length
              ≤ (mapDelete c.cache k).length + 1 := mapSet_length_le _ _ _
            _ = c.cache.length := mapDelete_length_of_get _ _ _ hg
            _ ≤ c.max := h
        · exact h
  | set k v =>
    show (LRUCache.set c k v).cache.length ≤ c.max
    unfold LRUCache.set
    split
    · next hs =>
        rcases Option.isSome_iff_exists.mp hs with ⟨v0, hv0⟩
        calc (mapSet (mapDelete c.cache k) k v).length
            ≤ (mapDelete c.cache k).length + 1 := mapSet_length_le _ _ _
          _ = c.cache.length := mapDelete_length_of_get _ _ _ hv0
          _ ≤ c.max := h
    · split
      · next hfull =>
          have hne : c.cache ≠ [] := by
            intro h0
            rw [h0] at hfull
            simp at hfull
            omega
          rcases List.exists_cons_of_ne_nil hne with ⟨e, rest, hc⟩
          rw [hc] at h ⊢
          show (mapSet (mapDelete (e :: rest) e.1) k v).length ≤ c.max
          have hdel : mapDelete (e :: rest) e.1 = rest := by simp [mapDelete]
          rw [hdel]
          have h1 := mapSet_length_le rest k v
          simp only [List.length_cons] at h
          omega
      · next hnotfull =>
          show (mapSet c.cache k v).length ≤ c.max
          have h1 := mapSet_length_le c.cache k v
          omega

/-- Any operation sequence from a within-capacity cache stays within
capacity. -/
theorem applyOps_length {T : Type} (truthy : T → Bool) (maxN : Nat)
    (hm : 1 ≤ maxN) :
    ∀ (ops : List (CacheOp T)) (c : LRUCache T), c.max = maxN →
      c.cache.length ≤ maxN → (applyOps truthy c ops).cache.length ≤ maxN := by
  intro ops
  induction ops with
  | nil =>
    intro c hcm h
    simpa [applyOps] using h
  | cons op rest ih =>
    intro c hcm h
    have hm2 : 1 ≤ c.max := by rw [hcm]; exact hm
    have h2 : c.cache.length ≤ c.max := by rw [hcm]; exact h
    have hlen := applyOp_length truthy c op hm2 h2
    have hmax := applyOp_max truthy c op
    have hrec := ih (applyOp truthy c op) (hmax.trans hcm)
      (by rw [← hcm]; exact hmax ▸ hlen)
    simpa [applyOps, List.foldl_cons] using hrec

/-- A set of an absent key on a full cache removes exactly the
first-positioned entry and appends the new one. -/
theorem set_evicts_head {T : Type} (c : LRUCache T) (key : String) (v : T)
    (hm : 1 ≤ c.max) (hfull : c.cache.length = c.max)
    (habs : mapGet c.cache key = none) :
    (c.set key v).cache = c.cache.tail ++ [(key, v)] := by
  have hne : c.cache ≠ [] := by
    intro h0
    rw [h0] at hfull
    simp at hfull
    omega
  rcases List.exists_cons_of_ne_nil hne with ⟨e, rest, hc⟩
  have hkey : mapGet rest key = none := by
    rw [hc] at habs
    simp only [mapGet] at habs
    by_cases hk : (e.1 == key) = true
    · rw [if_pos hk] at habs
      exact Option.noConfusion habs
    · rwa [if_neg hk] at habs
  have hge : c.cache.length ≥ c.max := le_of_eq hfull.symm
  unfold LRUCache.set
  rw [if_neg (by simp [habs]), if_pos hge, hc]
  show mapSet (mapDelete (e :: rest) e.1) key v = rest ++ [(key, v)]
  have hdel : mapDelete (e :: rest) e.1 = rest := by simp [mapDelete]
  rw [hdel, mapSet_of_absent rest key v hkey]

/-- C10 (amended): for every capacity max ≥ 1, after any sequence of get
and set operations from the empty cache the number of stored entries never
exceeds max; and a set of an absent key on a full cache evicts exactly the
first-positioned (oldest) entry before appending the new one.  (A get
refreshes a key's position only when the stored value is truthy, so the
first position is the least-recently-used key only in the absence of
falsy stored values — see the counterexample.) -/
theorem lru_capacity_and_eviction (T : Type) (truthy : T → Bool)
    (maxN : Nat) (hm : 1 ≤ maxN) :
    (∀ ops : List (CacheOp T),
      (applyOps truthy ⟨maxN, []⟩ ops).cache.length ≤ maxN)
    ∧ (∀ (c : LRUCache T) (key : String) (v : T), c.max = maxN →
        c.cache.length = maxN → mapGet c.cache key = none →
        (c.set key v).cache = c.cache.tail ++ [(key, v)]) := by
  constructor
  · intro ops
    exact applyOps_length truthy maxN hm ops ⟨maxN, []⟩ rfl (by simp)
  · intro c key v hcm hfull habs
    exact set_evicts_head c key v (by rw [hcm]; exact hm)
      (hfull.trans hcm.symm) habs

/-- C10 counterexample: value type number with capacity 2.  After
`set a 0; set b 1; get a`, key `a` was used most recently (at index 2,
versus index 1 for `b`), but its stored value 0 is falsy, so the get did
not refresh its position; the next `set c 7` on the full cache then
evicts `a` — not the least-recently-used key `b` — refuting "set on a
full cache evicts exactly the least-recently-used key". -/
theorem lru_counterexample :
    lastUse cexOps "a" = some 2 ∧
    lastUse cexOps "b" = some 1 ∧
    (applyOps jsTruthyNat ⟨2, []⟩ cexOps).cache.length = 2 ∧
    mapGet (applyOps jsTruthyNat ⟨2, []⟩ cexOps).cache "c" = none ∧
    mapGet ((applyOps jsTruthyNat ⟨2, []⟩ cexOps).set "c" 7).cache "a" = none ∧
    (mapGet ((applyOps jsTruthyNat ⟨2, []⟩ cexOps).set "c" 7).cache "b").isSome
      = true :=
  ⟨rfl, rfl, rfl, rfl, rfl, rfl⟩

/-- Witness: capacity 2 holds after three sets, and a full cache evicts
its oldest entry on a fresh set. -/
theorem lru_capacity_and_eviction_witness :
    (applyOps jsTruthyNat (⟨2, []⟩ : LRUCache Nat)
      [CacheOp.set "x" 1, CacheOp.set "y" 2, CacheOp.set "z" 3]).cache.length ≤ 2 ∧
    ((⟨2, [("a", 1), ("b", 2)]⟩ : LRUCache Nat).set "c" 3).cache =
      [("b", 2), ("c", 3)] := by
  constructor
  · exact (lru_capacity_and_eviction Nat jsTruthyNat 2 (by decide)).1 _
  · have h := (lru_capacity_and_eviction Nat jsTruthyNat 2 (by decide)).2
      ⟨2, [("a", 1), ("b", 2)]⟩ "c" 3 rfl rfl rfl
    simpa using h

/-- Witness: the user-code entry of a concrete archive carries one of the
two mandated names. -/
theorem packager_two_entries_witness :
    ("user.js", "x").1 = "user.js" ∨ ("user.js", "x").1 = "index.js" :=
  (packager_two_entries "x").2.2.2 ("user.js", "x") (by decide)
